import Mathlib

/-!
Verification development for the asset-management core (`mc/core/assets.py`):
the loader priority-queue ordering, the manager's progress counters, the
per-asset load state machine, and the asset-group selection algorithms.
Python integers are modelled as `Int`/`Nat`, Python lists/deques/sets as
`List`, and fallible accesses as `Option`.
-/

namespace Assets

/-! ### Asset priority-queue comparison (`Asset.__lt__`, `Asset._get_id`)

`Asset.__lt__` formats `(priority, _id)` with `"%s, %s"` and compares the
resulting *strings* with `>` (inverted because `PriorityQueue` pops the
smallest element first).  Strings are modelled as lists of Unicode code
points, `%s` of an integer as its decimal digits (with `-` = 45, `,` = 44,
`' '` = 32, `'0'` = 48), and Python string `<` as code-point-lexicographic
comparison. -/

structure AssetKey where
  priority : Int
  creationId : Nat
deriving DecidableEq, Repr

/-- Decimal digits of `n`, most significant first (`fuel`-bounded recursion;
`fuel = n + 1` always suffices since `n / 10 < n` for `n ≥ 10`). -/
def dec_digits_aux : Nat → Nat → List Nat
  | 0, _ => []
  | fuel + 1, n => if n < 10 then [n] else dec_digits_aux fuel (n / 10) ++ [n % 10]

def dec_digits (n : Nat) : List Nat :=
  dec_digits_aux (n + 1) n

/-- Code points of `str(i)` for a Python integer `i`. -/
def py_str_int : Int → List Nat
  | Int.ofNat n => (dec_digits n).map (· + 48)
  | Int.negSucc n => 45 :: (dec_digits (n + 1)).map (· + 48)

/-- Code points of `"%s, %s" % (priority, _id)`. -/
def fmt_key (a : AssetKey) : List Nat :=
  py_str_int a.priority ++ [44, 32] ++ (dec_digits a.creationId).map (· + 48)

/-- Python string `<`: lexicographic on code points, a proper prefix is
smaller. -/
def str_lt : List Nat → List Nat → Bool
  | [], [] => false
  | [], _ :: _ => true
  | _ :: _, [] => false
  | a :: as, b :: bs => if a < b then true else if b < a then false else str_lt as bs

/-- `a.__lt__ b`: `"%s, %s" % (a.priority, a._id) > "%s, %s" % (b.priority, b._id)`. -/
def asset_lt (a b : AssetKey) : Bool :=
  str_lt (fmt_key b) (fmt_key a)

/-- The element a `PriorityQueue` dequeues first: the minimum under `__lt__`
(the leftmost minimum, matching heap stability for two elements). -/
def pq_first (l : List AssetKey) : Option AssetKey :=
  l.foldl (fun acc x =>
    match acc with
    | none => some x
    | some m => if asset_lt x m then some x else some m) none

/-- C1: the spec's claimed dequeue order — strictly higher `priority` first,
and among equal priorities the smaller `creationId` first. -/
def spec_dequeues_before (a b : AssetKey) : Bool :=
  a.priority > b.priority || (a.priority == b.priority && a.creationId < b.creationId)

/-- C1 (code_bug): the comparison `Asset.__lt__` string-compares
`"%s, %s" % (priority, _id)` and therefore violates the claimed order.  With
`X = (priority 10, id 1)` and `Y = (priority 9, id 2)`, the spec says `X` is
dequeued first, but `"10, 1" < "9, 2"` as strings, so the queue yields `Y`
first whichever order they were enqueued in.  With equal priorities and ids
1 and 2, the spec says id 1 first, but the queue yields id 2 (LIFO),
contradicting the FIFO tie-break documented at `Asset._get_id`. -/
theorem c1_priority_queue_order_bug :
    spec_dequeues_before ⟨10, 1⟩ ⟨9, 2⟩ = true ∧
    asset_lt ⟨10, 1⟩ ⟨9, 2⟩ = false ∧
    asset_lt ⟨9, 2⟩ ⟨10, 1⟩ = true ∧
    pq_first [⟨10, 1⟩, ⟨9, 2⟩] = some ⟨9, 2⟩ ∧
    pq_first [⟨9, 2⟩, ⟨10, 1⟩] = some ⟨9, 2⟩ ∧
    spec_dequeues_before ⟨0, 1⟩ ⟨0, 2⟩ = true ∧
    asset_lt ⟨0, 2⟩ ⟨0, 1⟩ = true ∧
    asset_lt ⟨0, 1⟩ ⟨0, 2⟩ = false ∧
    pq_first [⟨0, 1⟩, ⟨0, 2⟩] = some ⟨0, 2⟩ := by
  decide

/-! ### Manager progress counters and `loading_percent`

`AssetManager.loading_percent` computes
`round((num_assets_loaded + num_bcp_assets_loaded) /
       (num_assets_to_load + num_bcp_assets_to_load) * 100)`
and returns `100` on `ZeroDivisionError`.  The real-number division is
modelled exactly on `ℚ`; `py_round` is Python 3 `round` (round half to
even), and `py_div` is Python `/` returning `none` on a zero divisor. -/

/-- Python 3 `round` to an integer: nearest, ties to even. -/
def py_round (q : ℚ) : ℤ :=
  if q - ⌊q⌋ < 1 / 2 then ⌊q⌋
  else if q - ⌊q⌋ > 1 / 2 then ⌊q⌋ + 1
  else if ⌊q⌋ % 2 = 0 then ⌊q⌋ else ⌊q⌋ + 1

/-- Python `/`: raises `ZeroDivisionError` (here `none`) on divisor `0`. -/
def py_div (a b : ℚ) : Option ℚ :=
  if b = 0 then none else some (a / b)

structure ManagerCounters where
  num_assets_to_load : Nat
  num_assets_loaded : Nat
  num_bcp_assets_to_load : Nat
  num_bcp_assets_loaded : Nat
deriving DecidableEq, Repr

/-- `AssetManager.loading_percent`: the `try` body divides first, then
multiplies by 100 and rounds; the `except ZeroDivisionError` branch
returns 100. -/
def loading_percent (m : ManagerCounters) : ℤ :=
  match py_div ((m.num_assets_loaded : ℚ) + (m.num_bcp_assets_loaded : ℚ))
      ((m.num_assets_to_load : ℚ) + (m.num_bcp_assets_to_load : ℚ)) with
  | some q => py_round (q * 100)
  | none => 100

/-- C5 (counterexample): `loading_percent` does *not* equal 100 whenever
`num_assets_to_load` and `num_assets_loaded` are both 0: with BCP counters
`num_bcp_assets_to_load = 10`, `num_bcp_assets_loaded = 5` the denominator is
10, not 0, and the percent is 50. -/
theorem c5_pending_loaded_zero_not_100 :
    loading_percent ⟨0, 0, 10, 5⟩ = 50 ∧ (50 : ℤ) ≠ 100 := by
  refine ⟨?_, by decide⟩
  simp [loading_percent, py_div, py_round]
  norm_num

/-- C5 (amended): `loading_percent` equals
`round((num_assets_loaded + num_bcp_assets_loaded) /
(num_assets_to_load + num_bcp_assets_to_load) * 100)` whenever the
denominator `num_assets_to_load + num_bcp_assets_to_load` is nonzero, and
equals 100 whenever that denominator is 0 (in particular when all four
counters are 0); `round` is Python's round-half-to-even. -/
theorem c5_loading_percent_formula (m : ManagerCounters) :
    (m.num_assets_to_load + m.num_bcp_assets_to_load = 0 →
      loading_percent m = 100) ∧
    (m.num_assets_to_load + m.num_bcp_assets_to_load ≠ 0 →
      loading_percent m =
        py_round (((m.num_assets_loaded : ℚ) + (m.num_bcp_assets_loaded : ℚ)) /
          ((m.num_assets_to_load : ℚ) + (m.num_bcp_assets_to_load : ℚ)) * 100)) := by
  have hcast : ((m.num_assets_to_load : ℚ) + (m.num_bcp_assets_to_load : ℚ)) =
      ((m.num_assets_to_load + m.num_bcp_assets_to_load : ℕ) : ℚ) := by
    push_cast
    ring
  constructor
  · intro h
    have hz : ((m.num_assets_to_load : ℚ) + (m.num_bcp_assets_to_load : ℚ)) = 0 := by
      rw [hcast, h]
      norm_num
    unfold loading_percent py_div
    rw [if_pos hz]
  · intro h
    have hne : ((m.num_assets_to_load : ℚ) + (m.num_bcp_assets_to_load : ℚ)) ≠ 0 := by
      rw [hcast]
      exact Nat.cast_ne_zero.mpr h
    unfold loading_percent py_div
    rw [if_neg hne]

/-- C5 (witness): at all-zero counters the denominator is 0 and the percent
is 100. -/
theorem c5_loading_percent_formula_witness :
    loading_percent ⟨0, 0, 0, 0⟩ = 100 :=
  (c5_loading_percent_formula ⟨0, 0, 0, 0⟩).1 rfl

/-! ### Manager load/poll counter state machine
(`AssetManager._load_asset`, `AssetLoader.run`, `AssetManager._check_loader_status`)

State: the two progress counters plus the lengths of the two queues.
`load_asset` is `_load_asset` (increment `num_assets_to_load`, put on
`loader_queue`); `loader_step` is one iteration of the loader thread's loop
(move one asset from `loader_queue` to `loaded_queue`; it always puts the
asset on `loaded_queue`, whether or not it was already loaded);
`check_loader_status` drains `loaded_queue`, counting each drained asset in
`num_assets_loaded`, then resets both counters to 0 when they are equal. -/

structure LoaderCounters where
  num_assets_to_load : Nat
  num_assets_loaded : Nat
  loader_queue : Nat
  loaded_queue : Nat
deriving DecidableEq, Repr

def initial_counters : LoaderCounters := ⟨0, 0, 0, 0⟩

/-- `AssetManager._load_asset`: one more asset to load, enqueued for the
loader thread. -/
def load_asset_step (s : LoaderCounters) : LoaderCounters :=
  ⟨s.num_assets_to_load + 1, s.num_assets_loaded, s.loader_queue + 1, s.loaded_queue⟩

/-- One pass of `AssetLoader.run`: dequeue an asset (if any) and put it on
the loaded queue. -/
def loader_thread_step (s : LoaderCounters) : LoaderCounters :=
  if 0 < s.loader_queue then
    ⟨s.num_assets_to_load, s.num_assets_loaded, s.loader_queue - 1, s.loaded_queue + 1⟩
  else s

/-- `AssetManager._check_loader_status`: drain the loaded queue (one
`num_assets_loaded` increment per drained asset), then reset both counters
to 0 if `num_assets_to_load == num_assets_loaded` afterwards. -/
def check_loader_status (s : LoaderCounters) : LoaderCounters :=
  if s.num_assets_to_load = s.num_assets_loaded + s.loaded_queue then
    ⟨0, 0, s.loader_queue, 0⟩
  else
    ⟨s.num_assets_to_load, s.num_assets_loaded + s.loaded_queue, s.loader_queue, 0⟩

/-- States reachable from startup by any interleaving of enqueues, loader
iterations and polls. -/
inductive ReachableCounters : LoaderCounters → Prop
  | init : ReachableCounters initial_counters
  | enqueue {s} : ReachableCounters s → ReachableCounters (load_asset_step s)
  | loader {s} : ReachableCounters s → ReachableCounters (loader_thread_step s)
  | poll {s} : ReachableCounters s → ReachableCounters (check_loader_status s)

/-- Every asset counted in `num_assets_to_load` is either already counted in
`num_assets_loaded` or still sitting in one of the two queues. -/
theorem reachable_counters_balance {s : LoaderCounters} (h : ReachableCounters s) :
    s.num_assets_loaded + s.loader_queue + s.loaded_queue = s.num_assets_to_load := by
  induction h with
  | init => rfl
  | enqueue _ ih =>
      unfold load_asset_step
      dsimp only
      omega
  | loader _ ih =>
      unfold loader_thread_step
      split <;> (try dsimp only) <;> omega
  | poll _ ih =>
      unfold check_loader_status
      split <;> (try dsimp only) <;> omega

/-- C3: in every reachable manager state `num_assets_loaded ≤
num_assets_to_load`; a poll (`_check_loader_status`) taken when
`num_assets_loaded = num_assets_to_load` resets both counters to 0; and a
poll with an empty results queue and both counters already 0 changes no
counter. -/
theorem c3_counters_invariant_and_reset {s : LoaderCounters}
    (h : ReachableCounters s) :
    s.num_assets_loaded ≤ s.num_assets_to_load ∧
    (s.num_assets_loaded = s.num_assets_to_load →
      (check_loader_status s).num_assets_to_load = 0 ∧
      (check_loader_status s).num_assets_loaded = 0) ∧
    (s.loaded_queue = 0 ∧ s.num_assets_loaded = 0 ∧ s.num_assets_to_load = 0 →
      check_loader_status s = s) := by
  have bal := reachable_counters_balance h
  obtain ⟨t, l, lq, dq⟩ := s
  dsimp only at bal ⊢
  refine ⟨by omega, fun he => ?_, fun hz => ?_⟩
  · unfold check_loader_status
    dsimp only
    rw [if_pos (by omega)]
    exact ⟨rfl, rfl⟩
  · obtain ⟨h1, h2, h3⟩ := hz
    subst h1 h2 h3
    simp [check_loader_status]

/-- C3 (witness): the state `⟨2, 1, 1, 0⟩` — two assets requested, one
loaded, one still on the loader queue — is reachable by enqueue, enqueue,
loader pass, poll; there the invariant and the poll clauses hold. -/
theorem c3_counters_invariant_and_reset_witness :
    (1 : Nat) ≤ 2 ∧
    ((1 : Nat) = 2 →
      (check_loader_status ⟨2, 1, 1, 0⟩).num_assets_to_load = 0 ∧
      (check_loader_status ⟨2, 1, 1, 0⟩).num_assets_loaded = 0) ∧
    ((0 : Nat) = 0 ∧ (1 : Nat) = 0 ∧ (2 : Nat) = 0 →
      check_loader_status ⟨2, 1, 1, 0⟩ = ⟨2, 1, 1, 0⟩) :=
  c3_counters_invariant_and_reset
    (ReachableCounters.poll (ReachableCounters.loader
      (ReachableCounters.enqueue (ReachableCounters.enqueue ReachableCounters.init))))

/-! ### `Asset.load` and the manager enqueue (`Asset.load`,
`Asset._call_callbacks`, `AssetManager._load_asset`)

`load(callback=None, priority=None)` optionally overwrites `priority`,
always adds `callback` (possibly `None`) to the `_callbacks` set, fires the
callbacks and returns if the asset is already loaded, does nothing at all
about `unloading` (the `if self.unloading: pass` branch), and otherwise sets
`loading` and hands the asset to `AssetManager._load_asset`.  A callback is
`some id` or `none` (Python `None`); `_call_callbacks` invokes the callable
ones and clears the set.  The result of `asset_load` is (new asset state,
new manager state, callbacks invoked synchronously). -/

structure AssetState where
  name : Nat
  priority : Int
  loaded : Bool
  loading : Bool
  unloading : Bool
  callbacks : List (Option Nat)
deriving DecidableEq, Repr

structure MgrQueue where
  num_assets_to_load : Nat
  loader_queue : List Nat
deriving DecidableEq, Repr

/-- `Asset._call_callbacks`: call every callable callback, then clear the
set. -/
def call_callbacks (a : AssetState) : AssetState × List Nat :=
  ({ a with callbacks := [] }, a.callbacks.filterMap id)

/-- `AssetManager._load_asset`: bump `num_assets_to_load` and put the asset
on the loader queue. -/
def mgr_load_asset (m : MgrQueue) (a : AssetState) : MgrQueue :=
  ⟨m.num_assets_to_load + 1, m.loader_queue ++ [a.name]⟩

/-- `Asset.load(callback, priority)`. -/
def asset_load (a : AssetState) (m : MgrQueue) (callback : Option Nat)
    (priority : Option Int) : AssetState × MgrQueue × List Nat :=
  let a1 := match priority with
    | some p => { a with priority := p }
    | none => a
  let a2 := { a1 with callbacks := a1.callbacks.insert callback }
  if a2.loaded then
    let r := call_callbacks a2
    (r.1, m, r.2)
  else
    -- `if self.unloading: pass` — no effect whatsoever
    let a3 := { a2 with loading := true }
    (a3, mgr_load_asset m a3, [])

/-- C4: `Asset.load` on an already-loaded asset invokes all registered
callbacks (the callable ones among the registered set plus the one just
passed) synchronously, clears the callback set, and changes nothing on the
manager: the loader queue contents and `num_assets_to_load` are exactly as
before, so `load` is idempotent for a loaded asset. -/
theorem c4_load_on_loaded_asset (a : AssetState) (m : MgrQueue) (cb : Option Nat)
    (pr : Option Int) (h : a.loaded = true) :
    (asset_load a m cb pr).2.1 = m ∧
    (asset_load a m cb pr).2.1.loader_queue = m.loader_queue ∧
    (asset_load a m cb pr).2.1.num_assets_to_load = m.num_assets_to_load ∧
    (asset_load a m cb pr).2.2 = (a.callbacks.insert cb).filterMap id ∧
    (asset_load a m cb pr).1.callbacks = [] ∧
    (asset_load a m cb pr).1.loaded = true := by
  cases pr <;> simp [asset_load, call_callbacks, h]

/-- C4 (witness): a loaded asset with one registered callback; `load` with a
new callback fires both, leaves the manager untouched and the asset loaded. -/
theorem c4_load_on_loaded_asset_witness :
    (asset_load ⟨5, 0, true, false, false, [some 1]⟩ ⟨3, [9]⟩ (some 2) none).2.1 = ⟨3, [9]⟩ ∧
    (asset_load ⟨5, 0, true, false, false, [some 1]⟩ ⟨3, [9]⟩ (some 2) none).2.1.loader_queue
      = (⟨3, [9]⟩ : MgrQueue).loader_queue ∧
    (asset_load ⟨5, 0, true, false, false, [some 1]⟩ ⟨3, [9]⟩ (some 2) none).2.1.num_assets_to_load
      = (⟨3, [9]⟩ : MgrQueue).num_assets_to_load ∧
    (asset_load ⟨5, 0, true, false, false, [some 1]⟩ ⟨3, [9]⟩ (some 2) none).2.2
      = ([some 1].insert (some 2)).filterMap id ∧
    (asset_load ⟨5, 0, true, false, false, [some 1]⟩ ⟨3, [9]⟩ (some 2) none).1.callbacks = [] ∧
    (asset_load ⟨5, 0, true, false, false, [some 1]⟩ ⟨3, [9]⟩ (some 2) none).1.loaded = true :=
  c4_load_on_loaded_asset ⟨5, 0, true, false, false, [some 1]⟩ ⟨3, [9]⟩ (some 2) none rfl

/-- C10: for an asset whose `unloading` flag is true, `load()` behaves
exactly as if the flag were false — the entire result (asset state, manager
state, synchronously fired callbacks) is the same except that the
`unloading` flag itself keeps its value; and when the asset is not loaded,
the callback is registered, `loading` is set, and the asset is handed to the
manager's enqueue, with no deferral or rejection. -/
theorem c10_load_ignores_unloading (a : AssetState) (m : MgrQueue)
    (cb : Option Nat) (pr : Option Int) :
    asset_load { a with unloading := true } m cb pr =
      ({ (asset_load { a with unloading := false } m cb pr).1 with unloading := true },
        (asset_load { a with unloading := false } m cb pr).2) ∧
    (a.loaded = false →
      (asset_load { a with unloading := true } m cb pr).1.loading = true ∧
      cb ∈ (asset_load { a with unloading := true } m cb pr).1.callbacks ∧
      (asset_load { a with unloading := true } m cb pr).2.1.num_assets_to_load
        = m.num_assets_to_load + 1 ∧
      (asset_load { a with unloading := true } m cb pr).2.1.loader_queue
        = m.loader_queue ++ [a.name]) := by
  constructor
  · cases pr <;> rcases hl : a.loaded <;>
      simp [asset_load, call_callbacks, mgr_load_asset, hl]
  · intro hl
    cases pr <;>
      simp [asset_load, call_callbacks, mgr_load_asset, hl, List.mem_insert_self]

/-- C10 (witness): an unloaded, mid-unload asset; `load` registers the
callback, sets `loading`, and enqueues it just as without the flag. -/
theorem c10_load_ignores_unloading_witness :
    asset_load { (⟨7, 0, false, false, false, []⟩ : AssetState) with unloading := true }
        ⟨0, []⟩ (some 3) (some 5) =
      ({ (asset_load { (⟨7, 0, false, false, false, []⟩ : AssetState) with
            unloading := false } ⟨0, []⟩ (some 3) (some 5)).1 with unloading := true },
        (asset_load { (⟨7, 0, false, false, false, []⟩ : AssetState) with
            unloading := false } ⟨0, []⟩ (some 3) (some 5)).2) ∧
    ((asset_load { (⟨7, 0, false, false, false, []⟩ : AssetState) with
        unloading := true } ⟨0, []⟩ (some 3) (some 5)).1.loading = true ∧
      some 3 ∈ (asset_load { (⟨7, 0, false, false, false, []⟩ : AssetState) with
        unloading := true } ⟨0, []⟩ (some 3) (some 5)).1.callbacks ∧
      (asset_load { (⟨7, 0, false, false, false, []⟩ : AssetState) with
        unloading := true } ⟨0, []⟩ (some 3) (some 5)).2.1.num_assets_to_load = 0 + 1 ∧
      (asset_load { (⟨7, 0, false, false, false, []⟩ : AssetState) with
        unloading := true } ⟨0, []⟩ (some 3) (some 5)).2.1.loader_queue = [] ++ [7]) :=
  ⟨(c10_load_ignores_unloading ⟨7, 0, false, false, false, []⟩ ⟨0, []⟩ (some 3) (some 5)).1,
    (c10_load_ignores_unloading ⟨7, 0, false, false, false, []⟩ ⟨0, []⟩ (some 3) (some 5)).2 rfl⟩

/-! ### AssetGroup weighted pick (`AssetGroup._pick_weighed_random`)

A group member is a pair `(asset id, weight)`.  `_pick_weighed_random`
initialises `index_value = assets[0][1]`, then for each member returns it if
`index_value >= value` and otherwise adds *that member's* weight; if the
loop falls through it returns `assets[-1]`.  The draw `value` (in the code
`random.randint(1, self._total_weights)`) is passed in explicitly. -/

/-- One group member: `(asset, weight)`. -/
abbrev Member := Nat × Nat

/-- `sum([x[1] for x in assets])`. -/
def sum_weights (assets : List Member) : Nat :=
  (assets.map (fun x => x.2)).sum

/-- The `for asset in assets` loop of `_pick_weighed_random`. -/
def pick_loop (value : Nat) : List Member → Nat → Option Member
  | [], _ => none
  | a :: rest, index_value =>
      if index_value ≥ value then some a else pick_loop value rest (index_value + a.2)

/-- `AssetGroup._pick_weighed_random(assets)` at draw `value`; `none` models
the `IndexError` on an empty member list. -/
def pick_weighed_random (assets : List Member) (value : Nat) : Option Member :=
  match assets with
  | [] => none
  | a0 :: _ =>
      match pick_loop value assets a0.2 with
      | some a => some a
      | none => assets.getLast?

/-- Cumulative weight of the first `i` members. -/
def cum_weight (assets : List Member) (i : Nat) : Nat :=
  sum_weights (assets.take i)

/-- C6's claimed bracket semantics: member `i` is returned iff the weights
before it sum below the draw and the sum through it reaches the draw. -/
def spec_bracket (assets : List Member) (value i : Nat) : Prop :=
  cum_weight assets i < value ∧ value ≤ cum_weight assets (i + 1)

instance (assets : List Member) (value i : Nat) :
    Decidable (spec_bracket assets value i) := by
  unfold spec_bracket
  infer_instance

/-- C6 (code_bug): for members `[(A,1), (B,2), (C,1)]` and draw `3` (total
weight 4), the claimed bracket semantics selects member 1 (`B`, since
`1 < 3 ≤ 3`) and not member 2, but the code returns `C`: the loop seeds the
accumulator with the first member's weight and then adds it again on the
first iteration, double-counting it. -/
theorem c6_weighted_pick_bug :
    spec_bracket [(0, 1), (1, 2), (2, 1)] 3 1 ∧
    ¬ spec_bracket [(0, 1), (1, 2), (2, 1)] 3 2 ∧
    pick_weighed_random [(0, 1), (1, 2), (2, 1)] 3 = some (2, 1) := by
  decide

/-! ### AssetGroup state and the `asset` accessor
(`AssetGroup.__init__`, `_configure_return_asset`, `AssetGroup.asset`,
`_get_random_asset`, `_get_sequence_asset`, `_get_random_force_next_asset`,
`_get_random_force_all_asset`)

The group state carries the member list, the selection type, the rotating
sequence buffer (a `deque`), `_last_asset`, `_assets_sent` (a set, modelled
as a duplicate-free list) and `_total_weights`.  `deque.rotate(-1)` is
`List.rotate · 1` (first element to the back) and `deque.rotate(1)` is
`py_rotate_right` (last element to the front).  Each accessor call consumes
one external draw `value` standing for `random.randint(..)`; accessors that
draw nothing ignore it. -/

inductive GroupType where
  | sequence
  | random
  | random_force_next
  | random_force_all
deriving DecidableEq, Repr

structure AssetGroupState where
  assets : List Member
  gtype : GroupType
  asset_sequence : List Nat
  last_asset : Option Member
  assets_sent : List Member
  total_weights : Nat
deriving DecidableEq, Repr

/-- The `_configure_return_asset` buffer loop: each member's asset id
repeated `weight` times, in original member order. -/
def expand_sequence (assets : List Member) : List Nat :=
  assets.flatMap (fun a => List.replicate a.2 a.1)

/-- `deque.rotate(1)`: the last element moves to the front. -/
def py_rotate_right (l : List α) : List α :=
  l.rotate (l.length - 1)

/-- Group state after `__init__` ran `_configure_return_asset`. -/
def configure_return_asset (assets : List Member) (gtype : GroupType) : AssetGroupState :=
  { assets := assets, gtype := gtype,
    asset_sequence :=
      if gtype = GroupType.sequence then py_rotate_right (expand_sequence assets) else [],
    last_asset := none, assets_sent := [], total_weights := sum_weights assets }

/-- The `asset` property: dispatch on the group's configured type.
`random_force_next` recomputes `_total_weights` over the members that are
not (`is not`) `_last_asset` and then picks among them;
`random_force_all` first resets `_assets_sent` when it has grown to the full
member count, then picks among members not yet sent and records the pick. -/
def group_asset (g : AssetGroupState) (value : Nat) : Option Nat × AssetGroupState :=
  match g.gtype with
  | GroupType.random => ((pick_weighed_random g.assets value).map (fun a => a.1), g)
  | GroupType.sequence =>
      let b := g.asset_sequence.rotate 1
      (b.head?, { g with asset_sequence := b })
  | GroupType.random_force_next =>
      let avail := g.assets.filter (fun x => decide (some x ≠ g.last_asset))
      match pick_weighed_random avail value with
      | some a =>
          (some a.1, { g with total_weights := sum_weights avail, last_asset := some a })
      | none => (none, { g with total_weights := sum_weights avail })
  | GroupType.random_force_all =>
      let sent := if g.assets_sent.length = g.assets.length then [] else g.assets_sent
      match pick_weighed_random (g.assets.filter (fun x => decide (x ∉ sent))) value with
      | some a => (some a.1, { g with assets_sent := sent.insert a })
      | none => (none, { g with assets_sent := sent })

/-- Group state after `k` accessor calls whose draws are `draws 0 .. draws (k-1)`. -/
def group_state (g0 : AssetGroupState) (draws : Nat → Nat) : Nat → AssetGroupState
  | 0 => g0
  | k + 1 => (group_asset (group_state g0 draws k) (draws k)).2

/-- The asset returned by accessor call number `k` (0-indexed). -/
def group_read (g0 : AssetGroupState) (draws : Nat → Nat) (k : Nat) : Option Nat :=
  (group_asset (group_state g0 draws k) (draws k)).1

theorem expand_length (assets : List Member) :
    (expand_sequence assets).length = sum_weights assets := by
  induction assets with
  | nil => rfl
  | cons a rest ih =>
      simp [expand_sequence, sum_weights] at ih ⊢
      omega

theorem seq_state (assets : List Member) (draws : Nat → Nat) (k : Nat) :
    (group_state (configure_return_asset assets GroupType.sequence) draws k).gtype
      = GroupType.sequence ∧
    (group_state (configure_return_asset assets GroupType.sequence) draws k).asset_sequence
      = (expand_sequence assets).rotate ((expand_sequence assets).length - 1 + k) := by
  induction k with
  | zero =>
      simp [group_state, configure_return_asset, py_rotate_right]
  | succ k ih =>
      obtain ⟨h1, h2⟩ := ih
      simp [group_state, group_asset, h1, h2, List.rotate_rotate]
      congr 1

theorem seq_read (assets : List Member) (draws : Nat → Nat) (k : Nat) :
    group_read (configure_return_asset assets GroupType.sequence) draws k =
      (expand_sequence assets)[k % (expand_sequence assets).length]? := by
  obtain ⟨h1, h2⟩ := seq_state assets draws k
  unfold group_read
  rcases hE : expand_sequence assets with _ | ⟨a, rest⟩
  · simp [group_asset, h1, h2, hE]
  · have hlen : 0 < (expand_sequence assets).length := by rw [hE]; simp
    simp only [group_asset, h1, h2]
    rw [List.rotate_rotate]
    have harg : (expand_sequence assets).length - 1 + k + 1
        = (expand_sequence assets).length + k := by omega
    rw [harg, ← List.rotate_mod, Nat.add_mod_left,
      List.head?_rotate (Nat.mod_lt _ hlen), hE]

/-- C7: for a sequence-type group the pre-expanded buffer holds each member
`weight` times in original member order, read `k` deterministically returns
entry `k % totalWeight` of that buffer (so the reads cycle with period
`totalWeight`), and for members `[(A,2), (B,1)]` the successive reads are
`A, A, B, A, A, B` from the very first read. -/
theorem c7_sequence_buffer_and_cycle :
    (∀ (assets : List Member) (draws : Nat → Nat) (k : Nat),
      group_read (configure_return_asset assets GroupType.sequence) draws k =
        (expand_sequence assets)[k % (expand_sequence assets).length]? ∧
      group_read (configure_return_asset assets GroupType.sequence) draws
          (k + sum_weights assets) =
        group_read (configure_return_asset assets GroupType.sequence) draws k) ∧
    expand_sequence [(0, 2), (1, 1)] = [0, 0, 1] ∧
    (List.range 6).map
        (group_read (configure_return_asset [(0, 2), (1, 1)] GroupType.sequence)
          (fun _ => 0)) =
      [some 0, some 0, some 1, some 0, some 0, some 1] := by
  refine ⟨fun assets draws k => ⟨seq_read assets draws k, ?_⟩, by decide, by decide⟩
  rw [seq_read, seq_read, ← expand_length assets, Nat.add_mod_right]

theorem group_state_inv (assets : List Member) (gtype : GroupType)
    (draws : Nat → Nat) (k : Nat) (h : gtype ≠ GroupType.random_force_next) :
    (group_state (configure_return_asset assets gtype) draws k).gtype = gtype ∧
    (group_state (configure_return_asset assets gtype) draws k).assets = assets ∧
    (group_state (configure_return_asset assets gtype) draws k).total_weights
      = sum_weights assets := by
  induction k with
  | zero => simp [group_state, configure_return_asset]
  | succ k ih =>
      obtain ⟨hg, ha, ht⟩ := ih
      cases gtype with
      | sequence => simp [group_state, group_asset, hg, ha, ht]
      | random => simp [group_state, group_asset, hg, ha, ht]
      | random_force_next => exact absurd rfl h
      | random_force_all =>
          simp only [group_state, group_asset, hg]
          split <;> simp [ha, ht]

/-- C9 (counterexample): for the `random_force_next` group with members
`[(A,1), (B,1)]`, after two accessor calls (draws 1, 1) the stored
`_total_weights` is 1 while the sum of the member weights is 2: the accessor
overwrote the total with the sum excluding the previously returned member. -/
theorem c9_total_weights_counterexample :
    (group_state (configure_return_asset [(0, 1), (1, 1)] GroupType.random_force_next)
      (fun _ => 1) 2).total_weights = 1 ∧
    sum_weights [(0, 1), (1, 1)] = 2 ∧ (1 : Nat) ≠ 2 := by
  decide

/-- C9 (amended): the stored total weight equals the sum of the member
weights after construction and after every accessor call of type
`sequence`, `random` or `random_force_all`; a `random_force_next` accessor
call instead sets it to the sum of the weights of the members other than
the previously returned `_last_asset` (which is the full sum only on the
first call, when `_last_asset` is still `None`). -/
theorem c9_total_weights_amended :
    (∀ (assets : List Member) (gtype : GroupType),
      (configure_return_asset assets gtype).total_weights = sum_weights assets) ∧
    (∀ (assets : List Member) (gtype : GroupType) (draws : Nat → Nat) (k : Nat),
      gtype ≠ GroupType.random_force_next →
      (group_state (configure_return_asset assets gtype) draws k).total_weights
        = sum_weights assets) ∧
    (∀ (g : AssetGroupState) (v : Nat),
      g.gtype = GroupType.random_force_next →
      ((group_asset g v).2).total_weights
        = sum_weights (g.assets.filter (fun x => decide (some x ≠ g.last_asset)))) := by
  refine ⟨fun assets gtype => rfl,
    fun assets gtype draws k h => (group_state_inv assets gtype draws k h).2.2,
    fun g v hg => ?_⟩
  simp only [group_asset, hg]
  split <;> simp

/-- C9 (witness): a two-member sequence group keeps its total equal to the
member-weight sum across two accessor calls, and one `random_force_next`
call from the freshly configured state (where `_last_asset = None`) sets the
total to the sum over the unfiltered member list. -/
theorem c9_total_weights_amended_witness :
    (group_state (configure_return_asset [(0, 1), (1, 1)] GroupType.sequence)
      (fun _ => 1) 2).total_weights = sum_weights [(0, 1), (1, 1)] ∧
    ((group_asset (configure_return_asset [(0, 1), (1, 1)]
        GroupType.random_force_next) 1).2).total_weights
      = sum_weights
          (((configure_return_asset [(0, 1), (1, 1)]
              GroupType.random_force_next).assets).filter
            (fun x => decide (some x ≠ (configure_return_asset [(0, 1), (1, 1)]
              GroupType.random_force_next).last_asset))) :=
  ⟨c9_total_weights_amended.2.1 [(0, 1), (1, 1)] GroupType.sequence
      (fun _ => 1) 2 (by decide),
    c9_total_weights_amended.2.2
      (configure_return_asset [(0, 1), (1, 1)] GroupType.random_force_next) 1 rfl⟩

theorem pick_loop_mem {v : Nat} : ∀ {l : List Member} {i : Nat} {a : Member},
    pick_loop v l i = some a → a ∈ l := by
  intro l
  induction l with
  | nil => intro i a h; simp [pick_loop] at h
  | cons b t ih =>
      intro i a h
      unfold pick_loop at h
      split at h
      · cases h; exact List.mem_cons_self b t
      · exact List.mem_cons_of_mem b (ih h)

theorem pick_mem {l : List Member} {v : Nat} {a : Member}
    (h : pick_weighed_random l v = some a) : a ∈ l := by
  cases l with
  | nil => simp [pick_weighed_random] at h
  | cons b t =>
      unfold pick_weighed_random at h
      dsimp only at h
      rcases hp : pick_loop v (b :: t) b.2 with _ | c
      · rw [hp] at h
        dsimp only at h
        exact List.mem_of_mem_getLast? h
      · rw [hp] at h
        dsimp only at h
        cases h
        exact pick_loop_mem hp

theorem pick_isSome {l : List Member} (hne : l ≠ []) (v : Nat) :
    ∃ a, pick_weighed_random l v = some a := by
  cases l with
  | nil => exact absurd rfl hne
  | cons b t =>
      unfold pick_weighed_random
      dsimp only
      rcases hp : pick_loop v (b :: t) b.2 with _ | c
      · have hl : (b :: t).getLast? = some ((b :: t).getLast (by simp)) :=
          List.getLast?_eq_getLast_of_ne_nil (by simp)
        exact ⟨_, hl⟩
      · exact ⟨c, rfl⟩

/-- One `random_force_all` accessor call from a state whose effective sent
set (after the reset check) is `sent0` and still misses some member: the
call returns some not-yet-sent member and records it. -/
theorem fa_step (g : AssetGroupState) (v : Nat) (sent0 : List Member)
    (hsent : sent0 = if g.assets_sent.length = g.assets.length then [] else g.assets_sent)
    (hg : g.gtype = GroupType.random_force_all)
    (hnd : g.assets.Nodup)
    (hlt : sent0.length < g.assets.length) :
    ∃ a ∈ g.assets, a ∉ sent0 ∧
      group_asset g v = (some a.1, { g with assets_sent := a :: sent0 }) := by
  have hmem : ∃ x ∈ g.assets, x ∉ sent0 := by
    by_contra hno
    push_neg at hno
    have hsub2 : g.assets ⊆ sent0 := fun x hx => hno x hx
    have := (List.subperm_of_subset hnd hsub2).length_le
    omega
  obtain ⟨x, hxA, hxs⟩ := hmem
  have havail : g.assets.filter (fun e => decide (e ∉ sent0)) ≠ [] :=
    List.ne_nil_of_mem (List.mem_filter.mpr ⟨hxA, by simpa using hxs⟩)
  obtain ⟨a, ha⟩ := pick_isSome havail v
  have haf := pick_mem ha
  have haA : a ∈ g.assets := (List.mem_filter.mp haf).1
  have has : a ∉ sent0 := by simpa using (List.mem_filter.mp haf).2
  refine ⟨a, haA, has, ?_⟩
  simp only [group_asset, hg]
  rw [← hsent, ha]
  dsimp only
  rw [List.insert_of_not_mem has]

/-- Three consecutive `random_force_all` accessor calls starting at a cycle
boundary (sent set empty or full) of a 3-member group return the three
members in some order and leave the sent set full. -/
theorem fa_cycle (g : AssetGroupState) (v1 v2 v3 : Nat)
    (hg : g.gtype = GroupType.random_force_all)
    (hnd : g.assets.Nodup) (hlen3 : g.assets.length = 3)
    (hs : g.assets_sent = [] ∨ g.assets_sent.length = 3) :
    [(group_asset g v1).1,
     (group_asset (group_asset g v1).2 v2).1,
     (group_asset (group_asset (group_asset g v1).2 v2).2 v3).1].Perm
        (g.assets.map (fun m => some m.1)) ∧
    (group_asset (group_asset (group_asset g v1).2 v2).2 v3).2.gtype
      = GroupType.random_force_all ∧
    (group_asset (group_asset (group_asset g v1).2 v2).2 v3).2.assets = g.assets ∧
    (group_asset (group_asset (group_asset g v1).2 v2).2 v3).2.assets_sent.length = 3 := by
  have hsent1 : ([] : List Member)
      = if g.assets_sent.length = g.assets.length then [] else g.assets_sent := by
    rcases hs with h | h
    · rw [h]
      split <;> rfl
    · rw [if_pos (by rw [h, hlen3])]
  obtain ⟨a1, h1A, h1s, hstep1⟩ :=
    fa_step g v1 [] hsent1 hg hnd (by simp [hlen3])
  rw [hstep1]
  dsimp only
  have hsent2 : ([a1] : List Member)
      = if ([a1] : List Member).length = g.assets.length then [] else [a1] := by
    rw [if_neg (by simp [hlen3])]
  obtain ⟨a2, h2A, h2s, hstep2⟩ :=
    fa_step { g with assets_sent := [a1] } v2 [a1] hsent2 hg hnd
      (by simp [hlen3])
  rw [hstep2]
  dsimp only
  have hsent3 : ([a2, a1] : List Member)
      = if ([a2, a1] : List Member).length = g.assets.length then [] else [a2, a1] := by
    rw [if_neg (by simp [hlen3])]
  obtain ⟨a3, h3A, h3s, hstep3⟩ :=
    fa_step { g with assets_sent := [a2, a1] } v3 [a2, a1] hsent3 hg hnd
      (by simp [hlen3])
  rw [hstep3]
  dsimp only
  refine ⟨?_, hg, rfl, rfl⟩
  have h21 : ¬ a2 = a1 := by simpa using h2s
  have h32 : ¬ a3 = a2 := by
    intro hc
    exact h3s (by simp [hc])
  have h31 : ¬ a3 = a1 := by
    intro hc
    exact h3s (by simp [hc])
  have hnods : ([a3, a2, a1] : List Member).Nodup := by
    simp [h21, h32, h31]
  have hsubs : ([a3, a2, a1] : List Member) ⊆ g.assets := by
    intro e he
    simp only [List.mem_cons, List.not_mem_nil, or_false] at he
    rcases he with rfl | rfl | rfl
    · exact h3A
    · exact h2A
    · exact h1A
  have hperm : ([a3, a2, a1] : List Member).Perm g.assets :=
    (List.subperm_of_subset hnods hsubs).perm_of_length_le (by simp [hlen3])
  have hrev : ([a1, a2, a3] : List Member).Perm [a3, a2, a1] := by
    have := List.reverse_perm ([a3, a2, a1] : List Member)
    simpa using this
  have := (hrev.trans hperm).map (fun m : Member => some m.1)
  simpa using this

theorem fa_boundary (x y z : Member) (hnd : ([x, y, z] : List Member).Nodup)
    (draws : Nat → Nat) (k : Nat) :
    (group_state (configure_return_asset [x, y, z] GroupType.random_force_all)
      draws (3 * k)).gtype = GroupType.random_force_all ∧
    (group_state (configure_return_asset [x, y, z] GroupType.random_force_all)
      draws (3 * k)).assets = [x, y, z] ∧
    ((group_state (configure_return_asset [x, y, z] GroupType.random_force_all)
        draws (3 * k)).assets_sent = [] ∨
      (group_state (configure_return_asset [x, y, z] GroupType.random_force_all)
        draws (3 * k)).assets_sent.length = 3) := by
  induction k with
  | zero => exact ⟨rfl, rfl, Or.inl rfl⟩
  | succ k ih =>
      obtain ⟨hg, ha, hs⟩ := ih
      have hc := fa_cycle _ (draws (3 * k)) (draws (3 * k + 1)) (draws (3 * k + 2))
        hg (by rw [ha]; exact hnd) (by rw [ha]; rfl) hs
      have harith : 3 * (k + 1) = 3 * k + 1 + 1 + 1 := by ring
      rw [harith]
      exact ⟨hc.2.1, hc.2.2.1.trans ha, Or.inr hc.2.2.2⟩

/-- C8 (counterexample): for the `random_force_all` group with members
`A = (0,1)`, `B = (1,1)`, `C = (2,1)` and draws `1, 1, 1, 2`, the first four
reads are `A, B, C, B`; the window of three consecutive reads starting at
read 1 is `B, C, B`, which does not contain all 3 distinct members (`A` is
missing), refuting the claim for windows not aligned to cycle boundaries. -/
theorem c8_force_all_counterexample :
    (List.range 4).map
      (group_read (configure_return_asset [(0, 1), (1, 1), (2, 1)]
        GroupType.random_force_all) (fun j => if j < 3 then 1 else 2)) =
      [some 0, some 1, some 2, some 1] ∧
    some 0 ∉ ((List.range 3).map
      (fun i => group_read (configure_return_asset [(0, 1), (1, 1), (2, 1)]
        GroupType.random_force_all) (fun j => if j < 3 then 1 else 2) (i + 1))) := by
  decide

/-- C8 (amended): for a `random_force_all` group with 3 distinct members,
every *cycle-aligned* window of 3 consecutive reads (reads `3k`, `3k+1`,
`3k+2`, for every `k` and every draw sequence) returns all 3 distinct
members; at the start of each cycle the already-returned set is empty or
full-and-about-to-be-reset, and after the cycle's three reads it is full
again (so the next cycle starts by resetting it). -/
theorem c8_force_all_aligned_cycles (x y z : Member)
    (hxy : x.1 ≠ y.1) (hxz : x.1 ≠ z.1) (hyz : y.1 ≠ z.1)
    (draws : Nat → Nat) (k : Nat) :
    [group_read (configure_return_asset [x, y, z] GroupType.random_force_all)
        draws (3 * k),
      group_read (configure_return_asset [x, y, z] GroupType.random_force_all)
        draws (3 * k + 1),
      group_read (configure_return_asset [x, y, z] GroupType.random_force_all)
        draws (3 * k + 2)].Perm [some x.1, some y.1, some z.1] ∧
    ((group_state (configure_return_asset [x, y, z] GroupType.random_force_all)
        draws (3 * k)).assets_sent = [] ∨
      (group_state (configure_return_asset [x, y, z] GroupType.random_force_all)
        draws (3 * k)).assets_sent.length = 3) ∧
    (group_state (configure_return_asset [x, y, z] GroupType.random_force_all)
      draws (3 * k + 3)).assets_sent.length = 3 := by
  have hxy2 : x ≠ y := fun h => hxy (congrArg Prod.fst h)
  have hxz2 : x ≠ z := fun h => hxz (congrArg Prod.fst h)
  have hyz2 : y ≠ z := fun h => hyz (congrArg Prod.fst h)
  have hnd : ([x, y, z] : List Member).Nodup := by simp [hxy2, hxz2, hyz2]
  obtain ⟨hg, ha, hs⟩ := fa_boundary x y z hnd draws k
  have hc := fa_cycle _ (draws (3 * k)) (draws (3 * k + 1)) (draws (3 * k + 2))
    hg (by rw [ha]; exact hnd) (by rw [ha]; rfl) hs
  refine ⟨?_, hs, ?_⟩
  · have h1 := hc.1
    rw [ha] at h1
    exact h1
  · exact hc.2.2.2

/-- C8 (witness): the second aligned cycle (`k = 1`) of the 3-member
weight-1 group under constant draw 1 returns the three members in some
order. -/
theorem c8_force_all_aligned_cycles_witness :
    [group_read (configure_return_asset [(0, 1), (1, 1), (2, 1)]
        GroupType.random_force_all) (fun _ => 1) (3 * 1),
      group_read (configure_return_asset [(0, 1), (1, 1), (2, 1)]
        GroupType.random_force_all) (fun _ => 1) (3 * 1 + 1),
      group_read (configure_return_asset [(0, 1), (1, 1), (2, 1)]
        GroupType.random_force_all) (fun _ => 1) (3 * 1 + 2)].Perm
      [some 0, some 1, some 2] ∧
    ((group_state (configure_return_asset [(0, 1), (1, 1), (2, 1)]
        GroupType.random_force_all) (fun _ => 1) (3 * 1)).assets_sent = [] ∨
      (group_state (configure_return_asset [(0, 1), (1, 1), (2, 1)]
        GroupType.random_force_all) (fun _ => 1) (3 * 1)).assets_sent.length = 3) ∧
    (group_state (configure_return_asset [(0, 1), (1, 1), (2, 1)]
      GroupType.random_force_all) (fun _ => 1) (3 * 1 + 3)).assets_sent.length = 3 :=
  c8_force_all_aligned_cycles (0, 1) (1, 1) (2, 1)
    (by decide) (by decide) (by decide) (fun _ => 1) 1

/-! ### AssetGroup.load and the group member-loaded callback
(`AssetGroup.load`, `AssetGroup._group_member_loaded`,
`AssetGroup._call_callbacks`, `Asset._call_callbacks`)

`AssetGroup.load` iterates over `self.assets` (a list of `(asset, weight)`
tuples); for each not-yet-loaded member it adds *the tuple* to the
`loading_members` set and calls `member.load(callback=self._group_member_loaded)`.
When a member finishes loading, `Asset._call_callbacks` invokes the
registered callback with *the `Asset` instance* (`callback(self)`), so
`_group_member_loaded` receives the asset object and runs
`self.loading_members.discard(asset)`.  A Python `set` holds arbitrary
objects and `discard` removes the elements equal to its argument; an `Asset`
instance never equals an `(asset, weight)` tuple.  `PyObj` models the two
kinds of objects involved, with structural equality exactly as Python
compares them (an asset reference equals only the same asset reference, a
tuple only a componentwise-equal tuple). -/

inductive PyObj where
  | asset (id : Nat)
  | pair (id weight : Nat)
deriving DecidableEq, Repr

structure GroupLoadState where
  assets : List Member
  loaded : Nat → Bool
  loading_members : List PyObj
  loads_requested : List Nat
  callbacks_fired : Nat

/-- `AssetGroup.load`: for every member not already loaded, add the
`(asset, weight)` tuple to `loading_members` and request the member's load;
then, if `loading_members` is empty, fire the group callbacks. -/
def group_load (g : GroupLoadState) : GroupLoadState :=
  let g2 := g.assets.foldl (fun acc m =>
    if g.loaded m.1 then acc
    else { acc with
      loading_members := acc.loading_members.insert (PyObj.pair m.1 m.2),
      loads_requested := acc.loads_requested ++ [m.1] }) g
  if g2.loading_members = [] then
    { g2 with callbacks_fired := g2.callbacks_fired + 1 }
  else g2

/-- `AssetGroup._group_member_loaded(asset)`: `loading_members.discard(asset)`
— remove every element equal to the `Asset` object — then fire the group
callbacks if `loading_members` became empty. -/
def group_member_loaded (g : GroupLoadState) (assetId : Nat) : GroupLoadState :=
  let lm := g.loading_members.filter (fun p => decide (p ≠ PyObj.asset assetId))
  if lm = [] then
    { g with loading_members := lm, callbacks_fired := g.callbacks_fired + 1 }
  else { g with loading_members := lm }

/-- C2 (code_bug): a group with the single not-yet-loaded member
`(asset 7, weight 1)`: `load` requests the member's load and tracks the
tuple as in-flight, but when the member finishes loading the callback
receives the asset object, whose removal from the tuple-holding set removes
nothing — `loading_members` stays non-empty and the group callbacks never
fire.  (A group whose members are all loaded does invoke its callbacks
immediately, as the last conjunct shows.) -/
theorem c2_group_callbacks_never_fire :
    (group_load ⟨[(7, 1)], fun _ => false, [], [], 0⟩).loads_requested = [7] ∧
    (group_load ⟨[(7, 1)], fun _ => false, [], [], 0⟩).loading_members
      = [PyObj.pair 7 1] ∧
    (group_member_loaded (group_load ⟨[(7, 1)], fun _ => false, [], [], 0⟩) 7).loading_members
      = [PyObj.pair 7 1] ∧
    (group_member_loaded (group_load ⟨[(7, 1)], fun _ => false, [], [], 0⟩) 7).callbacks_fired
      = 0 ∧
    (group_load ⟨[(7, 1)], fun _ => true, [], [], 0⟩).callbacks_fired = 1 := by
  decide

end Assets
